import Mathlib

/-!
Shallow embedding of the `hash-org/metrics` benchmark-runner core
(`scripts/runner/messages.py`, `scripts/runner/stats.py`,
`scripts/runner/cases.py`, `scripts/runner/results.py`).

Modelling conventions:
* Python `float` is modelled as `ℚ` with exact arithmetic.  The claims under
  study are about the algebraic behaviour of the formulas; the spec states its
  round-trip property "within floating-point tolerance", which the exact model
  makes precise via an explicit error bound.
* Python `int` is `ℤ` (arbitrary precision, as in Python).
* A Python `dict` (insertion-ordered, unique keys) is an association list
  `List (String × α)`; subscription `d[k]` is `alookup`, and a missing key is
  a `KeyError`.
* A Python function that can raise returns `Except PyErr α`; the `PyErr`
  value names the Python exception class that is raised.
* Logging calls are dropped, except where evaluating the log message itself
  raises (see `find_message_in_stream`).
* `json.loads` is an external library call: each stream line is represented
  by its parse outcome `Option PyVal` (`none` when `json.loads` raises
  `JSONDecodeError`), and `pydantic.BaseModel.model_validate` is modelled by
  the `validate*` functions below, restricted to the JSON value forms that
  can occur.
-/

/-- The Python exception classes raised by the embedded code. -/
inductive PyErr where
  | jsonDecodeError
  | attributeError
  | typeError
  | validationError
  | keyError
  | assertionError
  | valueError
  | zeroDivisionError
  deriving DecidableEq

/-- Python `int(x)` on a float: truncation toward zero. -/
def pyTrunc (q : ℚ) : ℤ := if 0 ≤ q then ⌊q⌋ else -⌊-q⌋

/-- Python `a % b` on floats with `b > 0`: `a - b * floor (a / b)`. -/
def pyFMod (a b : ℚ) : ℚ := a - b * ⌊a / b⌋

/-- Python `round(x)` (banker's rounding: round half to even). -/
def pythonRound (q : ℚ) : ℤ :=
  if q - ⌊q⌋ < 1 / 2 then ⌊q⌋
  else if 1 / 2 < q - ⌊q⌋ then ⌊q⌋ + 1
  else if ⌊q⌋ % 2 = 0 then ⌊q⌋ else ⌊q⌋ + 1

/-- Association-list lookup, modelling Python `dict` subscription
(first binding wins; Python dicts cannot contain duplicate keys). -/
def alookup {α : Type} : List (String × α) → String → Option α
  | [], _ => none
  | (k, v) :: l, s => if k = s then some v else alookup l s

/-- Sequential effectful map: the loop/comprehension evaluation order of
Python, where the first raised exception propagates. -/
def mapME {ε α β : Type} (f : α → Except ε β) : List α → Except ε (List β)
  | [] => .ok []
  | a :: l =>
    match f a with
    | .error e => .error e
    | .ok b =>
      match mapME f l with
      | .error e => .error e
      | .ok bs => .ok (b :: bs)

/-- Sequential effectful left fold, modelling `functools.reduce`. -/
def foldME {ε α β : Type} (f : β → α → Except ε β) : β → List α → Except ε β
  | b, [] => .ok b
  | b, a :: l =>
    match f b a with
    | .error e => .error e
    | .ok b2 => foldME f b2 l

/-- A numpy reduction over a Python list of `Optional` values raises
`TypeError` as soon as a `None` takes part in arithmetic or comparison;
otherwise all values are used in order. -/
def allSome {α : Type} : List (Option α) → Except PyErr (List α)
  | [] => .ok []
  | none :: _ => .error .typeError
  | some x :: l =>
    match allSome l with
    | .error e => .error e
    | .ok xs => .ok (x :: xs)

/-! ### `scripts/runner/messages.py` -/

/-- Model of `Duration` (messages.py:9): a seconds + nanoseconds pair. -/
structure Duration where
  secs : ℤ
  nanos : ℤ
  deriving DecidableEq

/-- Model of `Duration.__sub__` (messages.py:13): pairwise subtraction, no
normalisation of `nanos`. -/
def Duration.sub (a b : Duration) : Duration :=
  ⟨a.secs - b.secs, a.nanos - b.nanos⟩

/-- Model of `Duration.__add__` (messages.py:19): pairwise addition, no
normalisation of `nanos`. -/
def Duration.add (a b : Duration) : Duration :=
  ⟨a.secs + b.secs, a.nanos + b.nanos⟩

/-- Model of `Duration.to_ms` (messages.py:25): `secs * 1e3 + nanos * 1e-6`. -/
def Duration.to_ms (d : Duration) : ℚ :=
  (d.secs : ℚ) * 1000 + (d.nanos : ℚ) * (1 / 1000000)

/-- Model of `Duration.from_ms` (messages.py:31):
`secs = int(ms / 1e3)`, `nanos = int((ms % 1e3) * 1e6)`. -/
def Duration.from_ms (ms : ℚ) : Duration :=
  ⟨pyTrunc (ms / 1000), pyTrunc (pyFMod ms 1000 * 1000000)⟩

/-- Model of `MetricEntry` (messages.py:41): optional RSS values plus a duration. -/
structure MetricEntry where
  start_rss : Option ℤ
  end_rss : Option ℤ
  duration : Duration
  deriving DecidableEq

/-- Model of `MetricEntry.diff` (messages.py:46): field-wise `-`.  Python evaluates
`self.start_rss - other.start_rss` first, then the `end_rss` pair; `None`
on either side of a subtraction raises `TypeError`. -/
def MetricEntry.diff (a b : MetricEntry) : Except PyErr MetricEntry :=
  match a.start_rss, b.start_rss with
  | some x, some y =>
    match a.end_rss, b.end_rss with
    | some z, some w => .ok ⟨some (x - y), some (z - w), Duration.sub a.duration b.duration⟩
    | _, _ => .error .typeError
  | _, _ => .error .typeError

/-- Model of `MetricEntry.__add__` (messages.py:53): field-wise `+`, same `None`
behaviour as `diff`. -/
def MetricEntry.add (a b : MetricEntry) : Except PyErr MetricEntry :=
  match a.start_rss, b.start_rss with
  | some x, some y =>
    match a.end_rss, b.end_rss with
    | some z, some w => .ok ⟨some (x + y), some (z + w), Duration.add a.duration b.duration⟩
    | _, _ => .error .typeError
  | _, _ => .error .typeError

/-- Model of `StageMetrics` (messages.py:65): stage name → `MetricEntry`. -/
structure StageMetrics where
  metrics : List (String × MetricEntry)
  deriving DecidableEq

/-- Model of `StageMetrics.diff` (messages.py:68): per-stage diff over `self`'s keys;
a stage missing from `other` raises `KeyError`. -/
def StageMetrics.diff (a b : StageMetrics) : Except PyErr StageMetrics :=
  match mapME (fun p =>
    match alookup b.metrics p.1 with
    | none => .error PyErr.keyError
    | some e =>
      match MetricEntry.diff p.2 e with
      | .error er => .error er
      | .ok d => .ok (p.1, d)) a.metrics with
  | .error e => .error e
  | .ok l => .ok ⟨l⟩

/-- Model of `StageMetricEntry` (messages.py:78): a stage's own totals plus its
(sub-stage → entry) breakdown. -/
structure StageMetricEntry where
  total : MetricEntry
  children : StageMetrics
  deriving DecidableEq

/-- Model of `StageMetricEntry.diff` (messages.py:82). -/
def StageMetricEntry.diff (a b : StageMetricEntry) : Except PyErr StageMetricEntry :=
  match MetricEntry.diff a.total b.total with
  | .error e => .error e
  | .ok t =>
    match StageMetrics.diff a.children b.children with
    | .error e => .error e
    | .ok c => .ok ⟨t, c⟩

/-- Model of `Metrics` (messages.py:90): stage name → `StageMetricEntry`. -/
structure Metrics where
  metrics : List (String × StageMetricEntry)
  deriving DecidableEq

/-- The body of the comprehension in `Metrics.add` (messages.py:96):
`self.metrics[stage].diff(other.metrics[stage])` -- note `diff`, not a sum. -/
def diffStagePair (b : Metrics) (p : String × StageMetricEntry) :
    Except PyErr (String × StageMetricEntry) :=
  match alookup b.metrics p.1 with
  | none => .error PyErr.keyError
  | some e =>
    match StageMetricEntry.diff p.2 e with
    | .error er => .error er
    | .ok d => .ok (p.1, d)

/-- Model of `Metrics.add` (messages.py:93): despite its name, built from
`StageMetricEntry.diff` applied per stage of `self`. -/
def Metrics.add (a b : Metrics) : Except PyErr Metrics :=
  match mapME (diffStagePair b) a.metrics with
  | .error e => .error e
  | .ok l => .ok ⟨l⟩

/-- A Python value produced by `json.loads`. -/
inductive PyVal where
  | vnull
  | vbool (b : Bool)
  | vint (n : ℤ)
  | vfloat (q : ℚ)
  | vstr (s : String)
  | vlist (xs : List PyVal)
  | vdict (xs : List (String × PyVal))

/-- Model of `json.loads(line).get("message")` (messages.py:115): `dict.get` returns
`None` for a missing key; a non-dict JSON value has no `.get` attribute and
raises `AttributeError`. -/
def getMessage (v : PyVal) : Except PyErr PyVal :=
  match v with
  | .vdict xs => .ok ((alookup xs "message").getD .vnull)
  | _ => .error .attributeError

/-- pydantic validation of an `int` field (lax mode): accepts an int, an
integral float, or a numeric string; rejects everything else (including
bools, which pydantic refuses for int fields). -/
def validateInt (v : PyVal) : Except PyErr ℤ :=
  match v with
  | .vint n => .ok n
  | .vfloat q => if q.den = 1 then .ok q.num else .error .validationError
  | .vstr s =>
    match s.toInt? with
    | some n => .ok n
    | none => .error .validationError
  | _ => .error .validationError

/-- pydantic validation of an `Optional[int]` field: `null` is allowed. -/
def validateOptInt (v : PyVal) : Except PyErr (Option ℤ) :=
  match v with
  | .vnull => .ok none
  | _ =>
    match validateInt v with
    | .error e => .error e
    | .ok n => .ok (some n)

/-- pydantic validation of `Duration`: a dict with required `secs`/`nanos`
int fields (extra keys are ignored). -/
def validateDuration (v : PyVal) : Except PyErr Duration :=
  match v with
  | .vdict xs =>
    match alookup xs "secs" with
    | none => .error .validationError
    | some sv =>
      match validateInt sv with
      | .error e => .error e
      | .ok s =>
        match alookup xs "nanos" with
        | none => .error .validationError
        | some nv =>
          match validateInt nv with
          | .error e => .error e
          | .ok n => .ok ⟨s, n⟩
  | _ => .error .validationError

/-- pydantic validation of `MetricEntry`: required (nullable) `start_rss`,
`end_rss` and required `duration`. -/
def validateMetricEntry (v : PyVal) : Except PyErr MetricEntry :=
  match v with
  | .vdict xs =>
    match alookup xs "start_rss" with
    | none => .error .validationError
    | some sv =>
      match validateOptInt sv with
      | .error e => .error e
      | .ok s =>
        match alookup xs "end_rss" with
        | none => .error .validationError
        | some ev =>
          match validateOptInt ev with
          | .error e => .error e
          | .ok en =>
            match alookup xs "duration" with
            | none => .error .validationError
            | some dv =>
              match validateDuration dv with
              | .error e => .error e
              | .ok d => .ok ⟨s, en, d⟩
  | _ => .error .validationError

/-- pydantic validation of `StageMetrics`: a dict with a required `metrics`
field holding a (str → MetricEntry) dict. -/
def validateStageMetrics (v : PyVal) : Except PyErr StageMetrics :=
  match v with
  | .vdict xs =>
    match alookup xs "metrics" with
    | none => .error .validationError
    | some mv =>
      match mv with
      | .vdict ms =>
        match mapME (fun p =>
          match validateMetricEntry p.2 with
          | .error e => .error e
          | .ok me => .ok (p.1, me)) ms with
        | .error e => .error e
        | .ok l => .ok ⟨l⟩
      | _ => .error .validationError
  | _ => .error .validationError

/-- pydantic validation of `StageMetricEntry`: required `total` and
`children` fields. -/
def validateStageMetricEntry (v : PyVal) : Except PyErr StageMetricEntry :=
  match v with
  | .vdict xs =>
    match alookup xs "total" with
    | none => .error .validationError
    | some tv =>
      match validateMetricEntry tv with
      | .error e => .error e
      | .ok t =>
        match alookup xs "children" with
        | none => .error .validationError
        | some cv =>
          match validateStageMetrics cv with
          | .error e => .error e
          | .ok c => .ok ⟨t, c⟩
  | _ => .error .validationError

/-- pydantic validation of `Metrics`: a dict with a required `metrics`
field holding a (str → StageMetricEntry) dict; `Metrics.model_validate(None)`
(missing `message` key) fails validation like any non-conforming value. -/
def validateMetrics (v : PyVal) : Except PyErr Metrics :=
  match v with
  | .vdict xs =>
    match alookup xs "metrics" with
    | none => .error .validationError
    | some mv =>
      match mv with
      | .vdict ms =>
        match mapME (fun p =>
          match validateStageMetricEntry p.2 with
          | .error e => .error e
          | .ok se => .ok (p.1, se)) ms with
        | .error e => .error e
        | .ok l => .ok ⟨l⟩
      | _ => .error .validationError
  | _ => .error .validationError

/-- Model of `find_message_in_stream` (messages.py:107), for the only inhabitant
`"metrics"` of `MessageName`.  The stream is given as its lines, each line
replaced by the outcome of `json.loads` (`none` = the line is not valid
JSON).  Faithful control flow:
* `json.loads(line)` is OUTSIDE the `try`, so a malformed line raises
  `JSONDecodeError` out of the function;
* a non-dict JSON line raises `AttributeError` from `.get("message")`;
* when `Metrics.model_validate` raises `ValidationError`, the handler
  evaluates `"\n".join(exc.errors())` inside the log f-string, and since
  `exc.errors()` is a list of dicts, `str.join` raises `TypeError` before
  the `continue` is reached;
* only when every line has been examined without a match is `None`
  returned. -/
def find_message_in_stream : List (Option PyVal) → Except PyErr (Option Metrics)
  | [] => .ok none
  | none :: _ => .error .jsonDecodeError
  | some v :: _ =>
    match getMessage v with
    | .error e => .error e
    | .ok msg =>
      match validateMetrics msg with
      | .ok m => .ok (some m)
      | .error _ => .error .typeError

/-! ### `scripts/runner/stats.py` -/

/-- Model of `OUTLIER_THRESHOLD = 1.4826 * 10.0` (stats.py:4). -/
def OUTLIER_THRESHOLD : ℚ := 14826 / 1000

/-- Model of `EPSILON = np.finfo(float).eps` (stats.py:5), i.e. `2 ** -52`. -/
def EPSILON : ℚ := 1 / 2 ^ 52

/-- Model of `np.median`: sort ascending; take the middle element (odd length) or the
mean of the two middle elements (even length). -/
def npMedian (l : List ℚ) : ℚ :=
  if l.length % 2 = 1 then (List.insertionSort (· ≤ ·) l).getD (l.length / 2) 0
  else ((List.insertionSort (· ≤ ·) l).getD (l.length / 2 - 1) 0 +
        (List.insertionSort (· ≤ ·) l).getD (l.length / 2) 0) / 2

/-- The body of `modified_zscores` (stats.py:21) after the length assert:
median, median absolute deviation (with `EPSILON` substituted when the MAD
is zero), then `0.6745 * (x - median) / MAD` per point. -/
def modifiedZscoresCore (data : List ℚ) : List ℚ :=
  data.map fun x =>
    6745 / 10000 * (x - npMedian data) /
      (if npMedian (data.map fun y => |y - npMedian data|) ≠ 0 then
        npMedian (data.map fun y => |y - npMedian data|)
      else EPSILON)

/-- Model of `modified_zscores` (stats.py:8): `assert len(data) > 0` raises
`AssertionError` on an empty sample. -/
def modifiedZscores (data : List ℚ) : Except PyErr (List ℚ) :=
  if 0 < data.length then .ok (modifiedZscoresCore data) else .error .assertionError

/-- Model of `check_outliers` (stats.py:33):
`any(np.abs(modified_z_scores) > OUTLIER_THRESHOLD)`. -/
def checkOutliers (values : List ℚ) : Except PyErr Bool :=
  match modifiedZscores values with
  | .error e => .error e
  | .ok zs => .ok (zs.any fun z => decide (OUTLIER_THRESHOLD < |z|))

/-! ### `scripts/runner/cases.py` -/

/-- Model of `TestCaseResult` (cases.py:89).  The Lean field `caseId` is the Python
field `case` (a reserved word in Lean). -/
structure TestCaseResult where
  caseId : ℤ
  exit_code : ℤ
  compile_metrics : Option Metrics
  exe_size : Option ℤ
  deriving DecidableEq

/-- The per-stage sample collected in `run_test_case` (cases.py:180-186):
the `total` entry of each measured run that has metrics and has this stage. -/
def stageEntries (results : List TestCaseResult) (stage : String) : List MetricEntry :=
  results.filterMap fun r =>
    match r.compile_metrics with
    | none => none
    | some m =>
      match alookup m.metrics stage with
      | none => none
      | some sme => some sme.total

/-- One iteration of the stage loop of `run_test_case` (cases.py:176-223):
outlier checks on the three parallel samples (`np.median` raises `TypeError`
when a `None` RSS takes part in a comparison; an empty sample trips the
`assert` in `modified_zscores`), then `functools.reduce` with
`MetricEntry.__add__`, then the averaged entry
(`round(total / len)` raises `TypeError` when the total RSS is `None`);
`children` are left empty (deferred in the source). -/
def aggStage (results : List TestCaseResult) (p : String × StageMetricEntry) :
    Except PyErr (String × StageMetricEntry) :=
  match allSome ((stageEntries results p.1).map fun e => e.start_rss) with
  | .error e => .error e
  | .ok srss =>
    match checkOutliers (srss.map fun z : ℤ => (z : ℚ)) with
    | .error e => .error e
    | .ok _ =>
      match allSome ((stageEntries results p.1).map fun e => e.end_rss) with
      | .error e => .error e
      | .ok erss =>
        match checkOutliers (erss.map fun z : ℤ => (z : ℚ)) with
        | .error e => .error e
        | .ok _ =>
          match checkOutliers ((stageEntries results p.1).map fun e => e.duration.to_ms) with
          | .error e => .error e
          | .ok _ =>
            match stageEntries results p.1 with
            | [] => .error .typeError
            | e0 :: rest =>
              match foldME MetricEntry.add e0 rest with
              | .error e => .error e
              | .ok total =>
                match total.start_rss with
                | none => .error .typeError
                | some ts =>
                  match total.end_rss with
                  | none => .error .typeError
                  | some te =>
                    .ok (p.1,
                      ⟨⟨some (pythonRound ((ts : ℚ) / ((stageEntries results p.1).length : ℚ))),
                        some (pythonRound ((te : ℚ) / ((stageEntries results p.1).length : ℚ))),
                        Duration.from_ms
                          (total.duration.to_ms / ((stageEntries results p.1).length : ℚ))⟩,
                      ⟨[]⟩⟩)

/-- The aggregation part of `run_test_case` (cases.py:152-225), taking the
list of measured per-iteration results (the external `_single_run`
collaborator produced them; warmup runs are already discarded):
* `assert results` on an empty list;
* if no run has `compile_metrics`, return the first raw result unmodified;
* otherwise build the synthetic result: `np.average` over the raw
  `exe_size` list raises `TypeError` if any is `None`, and pydantic then
  rejects a non-integral mean for the `Optional[int]` field
  (`ValidationError`); the stage loop runs over the first-with-metrics
  run's stage keys; `exit_code` is 0. -/
def aggregateResults (cid : ℤ) (results : List TestCaseResult) : Except PyErr TestCaseResult :=
  match results with
  | [] => .error .assertionError
  | r0 :: _ =>
    if results.all (fun r => r.compile_metrics.isNone) then .ok r0
    else
      match results.find? (fun r => r.compile_metrics.isSome) with
      | none => .error .assertionError
      | some rf =>
        match rf.compile_metrics with
        | none => .error .assertionError
        | some fm =>
          match allSome (results.map fun r => r.exe_size) with
          | .error e => .error e
          | .ok sizes =>
            if ((sizes.map fun z : ℤ => (z : ℚ)).sum / (sizes.length : ℚ)).den = 1 then
              match mapME (aggStage results) fm.metrics with
              | .error e => .error e
              | .ok stages =>
                .ok ⟨cid, 0, some ⟨stages⟩,
                  some ((sizes.map fun z : ℤ => (z : ℚ)).sum / (sizes.length : ℚ)).num⟩
            else .error .validationError

/-- The mean executable size computed by `run_test_case` when every
measured run has an `exe_size`. -/
def exeMean (results : List TestCaseResult) : ℚ :=
  (((results.filterMap fun r => r.exe_size).map fun z : ℤ => (z : ℚ)).sum) /
    (((results.filterMap fun r => r.exe_size).length : ℚ))

/-- The averaged `MetricEntry` built by the stage loop of `run_test_case`
for a given per-stage sample: `round` (half-to-even) of the mean
`start_rss`, `round` of the mean `end_rss`, and the mean duration taken
through milliseconds and back. -/
def meanEntry (entries : List MetricEntry) : MetricEntry :=
  ⟨some (pythonRound ((((entries.filterMap fun e => e.start_rss).sum : ℤ) : ℚ) /
      (entries.length : ℚ))),
   some (pythonRound ((((entries.filterMap fun e => e.end_rss).sum : ℤ) : ℚ) /
      (entries.length : ℚ))),
   Duration.from_ms (((entries.map fun e => e.duration.to_ms).sum) / (entries.length : ℚ))⟩

/-! ### `scripts/runner/results.py` -/

/-- A Python float that may be the `float("inf")` sentinel. -/
inductive PyFloat where
  | val (q : ℚ)
  | posInf
  deriving DecidableEq

/-- Model of `percentage_diff` (results.py:10): `((right - left) / left) * 100`,
with `left == 0` yielding `float("inf")`. -/
def percentage_diff (left right : ℚ) : PyFloat :=
  if left = 0 then .posInf else .val ((right - left) / left * 100)

/-- Model of `"left"` / `"right"`, the two values of `ResultKind` (results.py:91). -/
inductive ResultKind where
  | left
  | right
  deriving DecidableEq

/-- Model of `"time"` / `"rss"`, the two values of `MetricKind` (results.py:90). -/
inductive MetricKind where
  | time
  | rss
  deriving DecidableEq

/-- Model of `ResultEntry` (results.py:41): one case's results under both builds.
The derived `comparison` field is not needed by the claims and is omitted. -/
structure ResultEntry where
  name : String
  original : TestCaseResult
  result : TestCaseResult
  deriving DecidableEq

/-- Model of `TestResults` (results.py:94): the collection of `ResultEntry` values. -/
structure TestResults where
  case_results : List ResultEntry
  deriving DecidableEq

/-- Model of `TestResults.stages` (results.py:110):
`self.case_results[0].original.compile_metrics.metrics.keys()` when
non-empty (an `AttributeError` if the first original has no metrics),
`[]` otherwise. -/
def TestResults.stages (tr : TestResults) : Except PyErr (List String) :=
  match tr.case_results with
  | [] => .ok []
  | e :: _ =>
    match e.original.compile_metrics with
    | none => .error .attributeError
    | some m => .ok (m.metrics.map Prod.fst)

/-- Model of `item.original if result == "left" else item.result` (results.py:141). -/
def pickSide (side : ResultKind) (e : ResultEntry) : TestCaseResult :=
  match side with
  | .left => e.original
  | .right => e.result

/-- The loop body of `TestResults.get_metric` (results.py:140-150):
`assert entry.compile_metrics` raises `AssertionError` on a side without
metrics, the stage subscription can raise `KeyError`, and the appended
value is the raw `end_rss` (possibly `None`) for `"rss"` or the duration
in milliseconds for `"time"`. -/
def metricOfEntry (side : ResultKind) (stage : String) (kind : MetricKind)
    (item : ResultEntry) : Except PyErr (Option ℚ) :=
  match (pickSide side item).compile_metrics with
  | none => .error .assertionError
  | some m =>
    match alookup m.metrics stage with
    | none => .error .keyError
    | some sme =>
      match kind with
      | .rss => .ok (sme.total.end_rss.map fun z => (z : ℚ))
      | .time => .ok (some sme.total.duration.to_ms)

/-- Model of `TestResults.get_metric` (results.py:126): raises `ValueError` for an
unknown stage, then collects the per-case values in order. -/
def TestResults.get_metric (tr : TestResults) (side : ResultKind) (stage : String)
    (kind : MetricKind) : Except PyErr (List (Option ℚ)) :=
  match tr.stages with
  | .error e => .error e
  | .ok st =>
    if stage ∈ st then
      match mapME (metricOfEntry side stage kind) tr.case_results with
      | .error e => .error e
      | .ok l => .ok l
    else .error .valueError

/-- Model of `TestResults.get_metric_avg` (results.py:164): `sum(results) /
len(results)`; summing a `None` raises `TypeError`, an empty list raises
`ZeroDivisionError`. -/
def TestResults.get_metric_avg (tr : TestResults) (side : ResultKind) (stage : String)
    (kind : MetricKind) : Except PyErr ℚ :=
  match tr.get_metric side stage kind with
  | .error e => .error e
  | .ok rs =>
    match allSome rs with
    | .error e => .error e
    | .ok vs =>
      if rs.length = 0 then .error .zeroDivisionError
      else .ok (vs.sum / (rs.length : ℚ))

/-- Model of `TestResults.get_metric_domain` (results.py:154): `(min(results),
max(results))`; comparison with `None` raises `TypeError`, an empty list
raises `ValueError`. -/
def TestResults.get_metric_domain (tr : TestResults) (side : ResultKind) (stage : String)
    (kind : MetricKind) : Except PyErr (ℚ × ℚ) :=
  match tr.get_metric side stage kind with
  | .error e => .error e
  | .ok rs =>
    match allSome rs with
    | .error e => .error e
    | .ok vs =>
      match vs with
      | [] => .error .valueError
      | v :: vt => .ok (vt.foldl min v, vt.foldl max v)

/-! ### Concrete inputs used by the scenario theorems -/

/-- The second line of the spec's extractor scenario:
`{"message":{"metrics":{"parse":{"total":{"start_rss":1,"end_rss":2,
"duration":{"secs":0,"nanos":500000}},"children":{"metrics":{}}}}}}`,
as parsed by `json.loads`. -/
def scenarioMetricsLine : PyVal :=
  .vdict [("message", .vdict [("metrics", .vdict [("parse", .vdict
    [("total", .vdict [("start_rss", .vint 1), ("end_rss", .vint 2),
      ("duration", .vdict [("secs", .vint 0), ("nanos", .vint 500000)])]),
     ("children", .vdict [("metrics", .vdict [])])])])])]

/-- The `Metrics` value carried by `scenarioMetricsLine`. -/
def scenarioMetrics : Metrics := ⟨[("parse", ⟨⟨some 1, some 2, ⟨0, 500000⟩⟩, ⟨[]⟩⟩)]⟩

/-- Measured run with `{start_rss: 100, end_rss: 200, duration: 10ms}` for
stage `parse` (the spec's aggregation example, first iteration). -/
def mEgA : Metrics := ⟨[("parse", ⟨⟨some 100, some 200, ⟨0, 10000000⟩⟩, ⟨[]⟩⟩)]⟩

def egA : TestCaseResult := ⟨0, 0, some mEgA, some 50⟩

/-- Second iteration of the spec's aggregation example:
`{start_rss: 200, end_rss: 300, duration: 20ms}`. -/
def egB : TestCaseResult :=
  ⟨0, 0, some ⟨[("parse", ⟨⟨some 200, some 300, ⟨0, 20000000⟩⟩, ⟨[]⟩⟩)]⟩, some 50⟩

/-- A second iteration with `start_rss = 201`, so that the mean start RSS
`150.5` is not an integer. -/
def cexB : TestCaseResult :=
  ⟨0, 0, some ⟨[("parse", ⟨⟨some 201, some 300, ⟨0, 20000000⟩⟩, ⟨[]⟩⟩)]⟩, some 50⟩

def sme0 : StageMetricEntry := ⟨⟨some 1, some 2, ⟨0, 0⟩⟩, ⟨[]⟩⟩

/-- A successfully-measured case result with one stage `parse`. -/
def tcrOk : TestCaseResult := ⟨0, 0, some ⟨[("parse", sme0)]⟩, some 10⟩

/-- An `AllIterationsFailed` case result: metrics and size are `None`. -/
def tcrFail : TestCaseResult := ⟨1, 1, none, none⟩

/-- A `TestResults` whose first entry has metrics on both sides and whose
second entry is an `AllIterationsFailed` case reported verbatim. -/
def trC3 : TestResults := ⟨[⟨"a", tcrOk, tcrOk⟩, ⟨"b", tcrFail, tcrFail⟩]⟩

/-- Left operand for the `Metrics.add` witness. -/
def mAdd1 : Metrics :=
  ⟨[("parse", ⟨⟨some 10, some 20, ⟨1, 2⟩⟩, ⟨[("sub", ⟨some 1, some 2, ⟨0, 1⟩⟩)]⟩⟩)]⟩

/-- Right operand for the `Metrics.add` witness. -/
def mAdd2 : Metrics :=
  ⟨[("parse", ⟨⟨some 4, some 5, ⟨0, 1⟩⟩, ⟨[("sub", ⟨some 1, some 1, ⟨0, 0⟩⟩)]⟩⟩)]⟩

/-! ### Helper lemmas -/

theorem alookup_mem {α : Type} {l : List (String × α)} {k : String} {v : α}
    (h : alookup l k = some v) : (k, v) ∈ l := by
  induction l with
  | nil => simp [alookup] at h
  | cons p t ih =>
    obtain ⟨a, b⟩ := p
    rw [alookup] at h
    by_cases hk : a = k
    · rw [if_pos hk] at h
      injection h with h
      subst hk; subst h
      exact List.mem_cons_self _ _
    · rw [if_neg hk] at h
      exact List.mem_cons_of_mem _ (ih h)

theorem alookup_isSome_of_mem {α : Type} {l : List (String × α)} {p : String × α}
    (h : p ∈ l) : (alookup l p.1).isSome := by
  induction l with
  | nil => simp at h
  | cons q t ih =>
    obtain ⟨a, b⟩ := q
    rw [alookup]
    by_cases hk : a = p.1
    · rw [if_pos hk]; rfl
    · rw [if_neg hk]
      rcases List.mem_cons.mp h with rfl | h2
      · exact absurd rfl hk
      · exact ih h2

theorem alookup_of_mem_nodup {α : Type} {l : List (String × α)}
    (hnd : (l.map Prod.fst).Nodup) {k : String} {v : α} (h : (k, v) ∈ l) :
    alookup l k = some v := by
  induction l with
  | nil => simp at h
  | cons q t ih =>
    obtain ⟨a, b⟩ := q
    rw [List.map_cons, List.nodup_cons] at hnd
    rw [alookup]
    rcases List.mem_cons.mp h with heq | h2
    · injection heq with h1 h2
      subst h1; subst h2
      rw [if_pos rfl]
    · have hk : a ≠ k := by
        intro hak
        subst hak
        exact hnd.1 (List.mem_map.mpr ⟨(a, v), h2, rfl⟩)
      rw [if_neg hk]
      exact ih hnd.2 h2

theorem mapME_ok_map {ε α β : Type} (f : α → Except ε β) (g : α → β) :
    ∀ l : List α, (∀ x ∈ l, f x = .ok (g x)) → mapME f l = .ok (l.map g) := by
  intro l
  induction l with
  | nil => intro _; rfl
  | cons a t ih =>
    intro h
    rw [mapME, h a (List.mem_cons_self _ _), ih fun x hx => h x (List.mem_cons_of_mem _ hx)]
    rfl

theorem allSome_map_ok {α β : Type} (f : α → Option β) (l : List α)
    (h : ∀ x ∈ l, (f x).isSome) : allSome (l.map f) = .ok (l.filterMap f) := by
  induction l with
  | nil => rfl
  | cons a t ih =>
    obtain ⟨b, hb⟩ := Option.isSome_iff_exists.mp (h a (List.mem_cons_self _ _))
    rw [List.map_cons, hb, List.filterMap_cons_some hb, allSome,
      ih fun x hx => h x (List.mem_cons_of_mem _ hx)]

theorem allSome_ok_length {α : Type} {l : List (Option α)} {v : List α}
    (h : allSome l = .ok v) : v.length = l.length := by
  induction l generalizing v with
  | nil =>
    rw [allSome] at h
    injection h with h
    subst h; rfl
  | cons o t ih =>
    match o with
    | none => exact absurd h (by rw [allSome]; intro hc; cases hc)
    | some x =>
      rw [allSome] at h
      cases ht : allSome t with
      | error e => rw [ht] at h; cases h
      | ok xs =>
        rw [ht] at h
        injection h with h
        subst h
        simp [ih ht]

theorem to_ms_add (a b : Duration) :
    (Duration.add a b).to_ms = a.to_ms + b.to_ms := by
  simp only [Duration.add, Duration.to_ms, Int.cast_add]
  ring

theorem pythonRound_intCast (z : ℤ) : pythonRound (z : ℚ) = z := by
  rw [pythonRound, Int.floor_intCast]
  norm_num

theorem from_ms_to_ms (d : Duration) (h1 : 0 ≤ d.secs) (h2 : 0 ≤ d.nanos)
    (h3 : d.nanos < 1000000000) : Duration.from_ms d.to_ms = d := by
  obtain ⟨s, n⟩ := d
  simp only at h1 h2 h3
  have hs : (0 : ℚ) ≤ (s : ℚ) := by exact_mod_cast h1
  have hn : (0 : ℚ) ≤ (n : ℚ) := by exact_mod_cast h2
  have hn9 : (n : ℚ) < 1000000000 := by exact_mod_cast h3
  have hdiv : ((s : ℚ) * 1000 + (n : ℚ) * (1 / 1000000)) / 1000
      = (n : ℚ) / 1000000000 + (s : ℚ) := by ring
  have hfr : ⌊(n : ℚ) / 1000000000⌋ = 0 := by
    rw [Int.floor_eq_zero_iff]
    constructor
    · positivity
    · rw [div_lt_one (by norm_num)]
      exact hn9
  have hfloor : ⌊((s : ℚ) * 1000 + (n : ℚ) * (1 / 1000000)) / 1000⌋ = s := by
    rw [hdiv, Int.floor_add_int, hfr, zero_add]
  have hms0 : (0 : ℚ) ≤ (s : ℚ) * 1000 + (n : ℚ) * (1 / 1000000) := by positivity
  have hsecs : pyTrunc (((s : ℚ) * 1000 + (n : ℚ) * (1 / 1000000)) / 1000) = s := by
    rw [pyTrunc, if_pos (by positivity), hfloor]
  have hmod : pyFMod ((s : ℚ) * 1000 + (n : ℚ) * (1 / 1000000)) 1000
      = (n : ℚ) * (1 / 1000000) := by
    rw [pyFMod, hfloor]
    ring
  have hnanos : pyTrunc (pyFMod ((s : ℚ) * 1000 + (n : ℚ) * (1 / 1000000)) 1000 * 1000000)
      = n := by
    rw [hmod]
    have hre : (n : ℚ) * (1 / 1000000) * 1000000 = (n : ℚ) := by ring
    rw [hre, pyTrunc, if_pos hn, Int.floor_intCast]
  show Duration.from_ms ((s : ℚ) * 1000 + (n : ℚ) * (1 / 1000000)) = ⟨s, n⟩
  rw [Duration.from_ms, hsecs, hnanos]

/-- C7: `percentage_diff(left, right)` equals `((right - left) / left) * 100`
for nonzero `left`, `percentage_diff(0, x)` is the `+infinity` sentinel for
every `x` (no exception is raised), and `percentage_diff(x, x) = 0` for
every nonzero `x`. -/
theorem c7_percentage_diff_spec (left right x : ℚ) :
    (left ≠ 0 → percentage_diff left right = .val ((right - left) / left * 100)) ∧
    percentage_diff 0 x = .posInf ∧
    (x ≠ 0 → percentage_diff x x = .val 0) := by
  refine ⟨fun h => ?_, ?_, fun h => ?_⟩
  · rw [percentage_diff, if_neg h]
  · rw [percentage_diff, if_pos rfl]
  · rw [percentage_diff, if_neg h, sub_self, zero_div, zero_mul]

theorem c7_witness :
    percentage_diff 2 3 = PyFloat.val ((3 - 2) / 2 * 100) ∧
    percentage_diff 0 7 = PyFloat.posInf ∧
    percentage_diff 7 7 = PyFloat.val 0 :=
  ⟨(c7_percentage_diff_spec 2 3 7).1 (by decide),
   (c7_percentage_diff_spec 2 3 7).2.1,
   (c7_percentage_diff_spec 2 3 7).2.2 (by decide)⟩

/-- C10: `MetricEntry.diff` and `MetricEntry.__add__` raise `TypeError`
whenever either operand's `start_rss` or `end_rss` is `None` (no `None`
propagation), and both succeed with field-wise results exactly when all
four RSS fields are present. -/
theorem c10_metric_entry_ops_require_rss (x y : MetricEntry) :
    ((x.start_rss = none ∨ x.end_rss = none ∨ y.start_rss = none ∨ y.end_rss = none) →
        MetricEntry.diff x y = .error .typeError ∧
        MetricEntry.add x y = .error .typeError) ∧
    (∀ a b c d : ℤ, x.start_rss = some a → x.end_rss = some b → y.start_rss = some c →
        y.end_rss = some d →
        MetricEntry.diff x y = .ok ⟨some (a - c), some (b - d), Duration.sub x.duration y.duration⟩ ∧
        MetricEntry.add x y = .ok ⟨some (a + c), some (b + d), Duration.add x.duration y.duration⟩) := by
  obtain ⟨xs, xe, xd⟩ := x
  obtain ⟨ys, ye, yd⟩ := y
  cases xs <;> cases xe <;> cases ys <;> cases ye <;>
    simp [MetricEntry.diff, MetricEntry.add]
  all_goals (intros; subst_vars; simp)

theorem c10_witness :
    MetricEntry.diff ⟨none, some 1, ⟨0, 0⟩⟩ ⟨some 2, some 3, ⟨1, 1⟩⟩ = .error .typeError ∧
    MetricEntry.add ⟨none, some 1, ⟨0, 0⟩⟩ ⟨some 2, some 3, ⟨1, 1⟩⟩ = .error .typeError :=
  (c10_metric_entry_ops_require_rss ⟨none, some 1, ⟨0, 0⟩⟩ ⟨some 2, some 3, ⟨1, 1⟩⟩).1
    (Or.inl rfl)

theorem metricsAddAux (b : Metrics) :
    ∀ l : List (String × StageMetricEntry),
      (∀ p ∈ l, ∃ eb, alookup b.metrics p.1 = some eb ∧
          ∃ d, StageMetricEntry.diff p.2 eb = Except.ok d) →
      ∃ res, mapME (diffStagePair b) l = Except.ok res ∧
        ∀ s ea, alookup l s = some ea →
          ∃ eb d, alookup b.metrics s = some eb ∧ StageMetricEntry.diff ea eb = Except.ok d ∧
            alookup res s = some d := by
  intro l
  induction l with
  | nil => exact fun _ => ⟨[], rfl, by intro s ea h; simp [alookup] at h⟩
  | cons p t ih =>
    intro h
    obtain ⟨eb, heb, d, hd⟩ := h p (List.mem_cons_self _ _)
    obtain ⟨res, hres, hrest⟩ := ih fun q hq => h q (List.mem_cons_of_mem _ hq)
    refine ⟨(p.1, d) :: res, ?_, ?_⟩
    · simp only [mapME, diffStagePair, heb, hd, hres]
    · intro s ea hs
      obtain ⟨k, v⟩ := p
      by_cases hk : k = s
      · subst hk
        rw [alookup, if_pos rfl] at hs
        injection hs with hs
        subst hs
        exact ⟨eb, d, heb, hd, by rw [alookup, if_pos rfl]⟩
      · rw [alookup, if_neg hk] at hs
        obtain ⟨eb2, d2, h1, h2, h3⟩ := hrest s ea hs
        exact ⟨eb2, d2, h1, h2, by rw [alookup, if_neg hk]; exact h3⟩

/-- C9: on stage maps with a common key set whose entries all have both RSS
fields, `Metrics.add` succeeds and returns, for every stage of `a`, exactly
`StageMetricEntry.diff` of `a`'s and `b`'s entries: the operation named
`add` computes the per-stage difference, not a per-stage sum. -/
theorem c9_metrics_add_is_per_stage_diff (a b : Metrics)
    (h : ∀ p ∈ a.metrics, ∃ eb, alookup b.metrics p.1 = some eb ∧
        ∃ d, StageMetricEntry.diff p.2 eb = Except.ok d) :
    ∃ m, Metrics.add a b = Except.ok m ∧
      ∀ s ea, alookup a.metrics s = some ea →
        ∃ eb d, alookup b.metrics s = some eb ∧ StageMetricEntry.diff ea eb = Except.ok d ∧
          alookup m.metrics s = some d := by
  obtain ⟨res, hres, hcorr⟩ := metricsAddAux b a.metrics h
  exact ⟨⟨res⟩, by simp only [Metrics.add, hres], hcorr⟩

theorem c9_witness :
    ∃ m, Metrics.add mAdd1 mAdd2 = Except.ok m ∧
      ∀ s ea, alookup mAdd1.metrics s = some ea →
        ∃ eb d, alookup mAdd2.metrics s = some eb ∧ StageMetricEntry.diff ea eb = Except.ok d ∧
          alookup m.metrics s = some d :=
  c9_metrics_add_is_per_stage_diff mAdd1 mAdd2 (by
    intro p hp
    simp [mAdd1] at hp
    subst hp
    exact ⟨_, rfl, _, rfl⟩)

/-- C5: when no measured run produced `compile_metrics`, `run_test_case`
returns the first raw result unmodified, regardless of how many
iterations were collected. -/
theorem c5_all_failed_returns_first (cid : ℤ) (r : TestCaseResult) (rs : List TestCaseResult)
    (h : ∀ t ∈ r :: rs, t.compile_metrics = none) :
    aggregateResults cid (r :: rs) = Except.ok r := by
  have hall : ((r :: rs).all fun t => t.compile_metrics.isNone) = true := by
    rw [List.all_eq_true]
    intro t ht
    rw [h t ht]
    rfl
  simp only [aggregateResults, hall, if_true]

theorem c5_witness :
    aggregateResults 0 [⟨0, 1, none, none⟩, ⟨0, 2, none, none⟩] =
      Except.ok ⟨0, 1, none, none⟩ :=
  c5_all_failed_returns_first 0 ⟨0, 1, none, none⟩ [⟨0, 2, none, none⟩] (by decide)

/-- C1: the claim says `find_message_in_stream` never raises and skips the
malformed `'not json'` line of the spec's own scenario; the code instead
raises `json.JSONDecodeError` there, because `json.loads` is outside the
`try` block (which catches only `ValidationError`).  Evaluating the model
at the claim's scenario: the stream `['not json', <valid metrics line>]`
raises instead of returning the second line's `Metrics`, while the second
line alone is extracted fine, showing its payload is valid. -/
theorem c1_find_message_raises_on_malformed_line :
    find_message_in_stream [none, some scenarioMetricsLine] =
      Except.error PyErr.jsonDecodeError ∧
    find_message_in_stream [some scenarioMetricsLine] = Except.ok (some scenarioMetrics) :=
  ⟨rfl, rfl⟩

theorem metricOfEntry_ok {side : ResultKind} {stage : String} {kind : MetricKind}
    {e : ResultEntry} {m : Metrics} {sme : StageMetricEntry}
    (hm : (pickSide side e).compile_metrics = some m)
    (hsme : alookup m.metrics stage = some sme) :
    metricOfEntry side stage kind e =
      Except.ok (match kind with
        | .rss => sme.total.end_rss.map fun z => (z : ℚ)
        | .time => some sme.total.duration.to_ms) := by
  cases kind <;> simp [metricOfEntry, hm, hsme]

theorem mapME_metric_assert (side : ResultKind) (stage : String) (kind : MetricKind) :
    ∀ l : List ResultEntry,
      (∀ e ∈ l, (pickSide side e).compile_metrics = none ∨
          ∃ m, (pickSide side e).compile_metrics = some m ∧ (alookup m.metrics stage).isSome) →
      (∃ e ∈ l, (pickSide side e).compile_metrics = none) →
      mapME (metricOfEntry side stage kind) l = Except.error PyErr.assertionError := by
  intro l
  induction l with
  | nil => intro _ hex; simp at hex
  | cons e t ih =>
    intro hall hex
    by_cases he : (pickSide side e).compile_metrics = none
    · simp only [mapME, metricOfEntry, he]
    · rcases hall e (List.mem_cons_self _ _) with h | ⟨m, hm, hsome⟩
      · exact absurd h he
      obtain ⟨sme, hsme⟩ := Option.isSome_iff_exists.mp hsome
      have hex2 : ∃ x ∈ t, (pickSide side x).compile_metrics = none := by
        obtain ⟨x, hx, hxn⟩ := hex
        rcases List.mem_cons.mp hx with rfl | hx2
        · exact absurd hxn he
        · exact ⟨x, hx2, hxn⟩
      have ht := ih (fun x hx => hall x (List.mem_cons_of_mem _ hx)) hex2
      simp only [mapME, metricOfEntry_ok hm hsme, ht]

/-- C3 (amended): an `AllIterationsFailed` case is NOT excluded from the
stage-level statistics.  `get_metric` hits `assert entry.compile_metrics`
on it and raises `AssertionError`, and `get_metric_avg` /
`get_metric_domain` propagate that failure -- even when the first case
entry has metrics on both sides and every case with metrics has the
requested stage. -/
theorem c3_amended_stats_assertion_error (tr : TestResults) (side : ResultKind)
    (stage : String) (kind : MetricKind) (e0 : ResultEntry) (rest : List ResultEntry)
    (m0 : Metrics)
    (h0 : tr.case_results = e0 :: rest)
    (hm0 : e0.original.compile_metrics = some m0)
    (hst : stage ∈ m0.metrics.map Prod.fst)
    (hall : ∀ e ∈ tr.case_results, (pickSide side e).compile_metrics = none ∨
        ∃ m, (pickSide side e).compile_metrics = some m ∧ (alookup m.metrics stage).isSome)
    (hex : ∃ e ∈ tr.case_results, (pickSide side e).compile_metrics = none) :
    tr.get_metric side stage kind = Except.error PyErr.assertionError ∧
    tr.get_metric_avg side stage kind = Except.error PyErr.assertionError ∧
    tr.get_metric_domain side stage kind = Except.error PyErr.assertionError := by
  have hstages : tr.stages = Except.ok (m0.metrics.map Prod.fst) := by
    simp only [TestResults.stages, h0, hm0]
  have hmap := mapME_metric_assert side stage kind tr.case_results hall hex
  have h1 : tr.get_metric side stage kind = Except.error PyErr.assertionError := by
    simp only [TestResults.get_metric, hstages, hmap, if_pos hst]
  refine ⟨h1, ?_, ?_⟩
  · simp only [TestResults.get_metric_avg, h1]
  · simp only [TestResults.get_metric_domain, h1]

theorem c3_amended_witness :
    TestResults.get_metric trC3 .right "parse" .time = Except.error PyErr.assertionError ∧
    TestResults.get_metric_avg trC3 .right "parse" .time = Except.error PyErr.assertionError ∧
    TestResults.get_metric_domain trC3 .right "parse" .time =
      Except.error PyErr.assertionError :=
  c3_amended_stats_assertion_error trC3 .right "parse" .time ⟨"a", tcrOk, tcrOk⟩
    [⟨"b", tcrFail, tcrFail⟩] ⟨[("parse", sme0)]⟩ rfl rfl (by decide)
    (by
      intro e he
      simp [trC3] at he
      rcases he with rfl | rfl
      · right; exact ⟨_, rfl, rfl⟩
      · left; rfl)
    ⟨⟨"b", tcrFail, tcrFail⟩, by decide, rfl⟩

/-- C3 (counterexample): on a `TestResults` whose first entry has metrics
on both sides and whose second entry is an `AllIterationsFailed` case,
the claim says the stage statistics still succeed with the failed case
excluded; in fact all three raise `AssertionError`. -/
theorem c3_counterexample_stats_raise :
    TestResults.get_metric trC3 .left "parse" .rss = Except.error PyErr.assertionError ∧
    TestResults.get_metric_avg trC3 .left "parse" .rss = Except.error PyErr.assertionError ∧
    TestResults.get_metric_domain trC3 .left "parse" .rss =
      Except.error PyErr.assertionError :=
  ⟨rfl, rfl, rfl⟩

theorem getD_all_eq {s : List ℚ} {c : ℚ} (h : ∀ x ∈ s, x = c) {i : ℕ} (hi : i < s.length) :
    s.getD i 0 = c := by
  rw [List.getD_eq_getElem?_getD, List.getElem?_eq_getElem hi, Option.getD_some]
  exact h _ (List.getElem_mem hi)

theorem npMedian_const {l : List ℚ} {c : ℚ} (hne : l ≠ []) (h : ∀ x ∈ l, x = c) :
    npMedian l = c := by
  have hpos : 0 < l.length := List.length_pos.mpr hne
  have hs : ∀ x ∈ List.insertionSort (· ≤ ·) l, x = c := fun x hx =>
    h x ((List.mem_insertionSort _).mp hx)
  have hlen : (List.insertionSort (· ≤ ·) l).length = l.length :=
    List.length_insertionSort _ l
  rw [npMedian]
  by_cases hodd : l.length % 2 = 1
  · rw [if_pos hodd]
    exact getD_all_eq hs (by rw [hlen]; exact Nat.div_lt_self hpos (by norm_num))
  · rw [if_neg hodd]
    have h1 : l.length / 2 - 1 < (List.insertionSort (· ≤ ·) l).length := by
      rw [hlen]
      exact lt_of_le_of_lt (Nat.sub_le _ _) (Nat.div_lt_self hpos (by norm_num))
    have h2 : l.length / 2 < (List.insertionSort (· ≤ ·) l).length := by
      rw [hlen]
      exact Nat.div_lt_self hpos (by norm_num)
    rw [getD_all_eq hs h1, getD_all_eq hs h2]
    exact add_self_div_two c

/-- C6: for a non-empty sample, `check_outliers` flags exactly when the
maximum absolute modified z-score `0.6745 * (x - median) / MAD` exceeds
`14.826` (with `MAD` replaced by machine epsilon when zero); in particular
a sample of identical values is never flagged: the `MAD = 0` path
substitutes epsilon, no division by zero occurs, and every z-score is 0. -/
theorem c6_outlier_flag_iff_max_zscore (l : List ℚ) (hl : l ≠ []) :
    (∀ (zs : List ℚ) (M : ℚ), modifiedZscores l = Except.ok zs →
        (zs.map fun z => |z|).maximum = (M : WithBot ℚ) →
        (checkOutliers l = Except.ok true ↔ OUTLIER_THRESHOLD < M)) ∧
    (∀ c, (∀ x ∈ l, x = c) → checkOutliers l = Except.ok false) := by
  have hpos : 0 < l.length := List.length_pos.mpr hl
  have hzs : modifiedZscores l = Except.ok (modifiedZscoresCore l) := by
    rw [modifiedZscores, if_pos hpos]
  constructor
  · intro zs M hz hM
    rw [hzs] at hz
    injection hz with hz
    subst hz
    simp only [checkOutliers, hzs, Except.ok.injEq]
    constructor
    · intro hh
      rw [List.any_eq_true] at hh
      obtain ⟨z, hzm, hzT⟩ := hh
      have hzT2 := of_decide_eq_true hzT
      have hmem : |z| ∈ (modifiedZscoresCore l).map fun z => |z| :=
        List.mem_map_of_mem _ hzm
      exact lt_of_lt_of_le hzT2 (List.le_maximum_of_mem hmem hM)
    · intro hT
      have hmem := List.maximum_mem hM
      obtain ⟨z, hzm, habs⟩ := List.mem_map.mp hmem
      rw [List.any_eq_true]
      exact ⟨z, hzm, decide_eq_true (habs ▸ hT : OUTLIER_THRESHOLD < |z|)⟩
  · intro c hc
    have hmed : npMedian l = c := npMedian_const hl hc
    have hmap_ne : l.map (fun y => |y - npMedian l|) ≠ [] := by
      simp [hl]
    have hmad : npMedian (l.map fun y => |y - npMedian l|) = 0 := by
      apply npMedian_const hmap_ne
      intro x hx
      obtain ⟨y, hy, rfl⟩ := List.mem_map.mp hx
      rw [hmed, hc y hy, sub_self, abs_zero]
    simp only [checkOutliers, hzs, Except.ok.injEq]
    rw [List.any_eq_false]
    intro z hzm
    rw [modifiedZscoresCore] at hzm
    obtain ⟨x, hx, rfl⟩ := List.mem_map.mp hzm
    rw [hmad, hmed, hc x hx]
    norm_num [OUTLIER_THRESHOLD]

theorem c6_witness : checkOutliers [(5 : ℚ), 5] = Except.ok false :=
  (c6_outlier_flag_iff_max_zscore [(5 : ℚ), 5] (by decide)).2 5 (by decide)

theorem checkOutliers_isOk {l : List ℚ} (h : l ≠ []) : ∃ b, checkOutliers l = Except.ok b := by
  rw [checkOutliers, modifiedZscores, if_pos (List.length_pos.mpr h)]
  exact ⟨_, rfl⟩

theorem stageEntries_mem {results : List TestCaseResult} {s : String} {e : MetricEntry}
    (h : e ∈ stageEntries results s) :
    ∃ r ∈ results, ∃ m sme, r.compile_metrics = some m ∧ alookup m.metrics s = some sme ∧
      e = sme.total := by
  rw [stageEntries] at h
  obtain ⟨r, hr, hre⟩ := List.mem_filterMap.mp h
  refine ⟨r, hr, ?_⟩
  cases hm : r.compile_metrics with
  | none => simp [hm] at hre
  | some m =>
    simp only [hm] at hre
    cases hsme : alookup m.metrics s with
    | none => simp [hsme] at hre
    | some sme =>
      simp only [hsme] at hre
      injection hre with hre
      exact ⟨m, sme, rfl, hsme, hre.symm⟩

theorem foldME_add_ok :
    ∀ (l : List MetricEntry) (acc : MetricEntry) (a0 b0 : ℤ),
      acc.start_rss = some a0 → acc.end_rss = some b0 →
      (∀ e ∈ l, e.start_rss.isSome ∧ e.end_rss.isSome) →
      ∃ total, foldME MetricEntry.add acc l = Except.ok total ∧
        total.start_rss = some (a0 + (l.filterMap fun e => e.start_rss).sum) ∧
        total.end_rss = some (b0 + (l.filterMap fun e => e.end_rss).sum) ∧
        total.duration.to_ms = acc.duration.to_ms + (l.map fun e => e.duration.to_ms).sum := by
  intro l
  induction l with
  | nil =>
    intro acc a0 b0 ha hb _
    exact ⟨acc, rfl, by simp [ha], by simp [hb], by simp⟩
  | cons e t ih =>
    intro acc a0 b0 ha hb hl
    obtain ⟨hes, hee⟩ := hl e (List.mem_cons_self _ _)
    obtain ⟨ae, hae⟩ := Option.isSome_iff_exists.mp hes
    obtain ⟨be, hbe⟩ := Option.isSome_iff_exists.mp hee
    have hadd : MetricEntry.add acc e =
        Except.ok ⟨some (a0 + ae), some (b0 + be), Duration.add acc.duration e.duration⟩ := by
      simp only [MetricEntry.add, ha, hae, hb, hbe]
    obtain ⟨total, h1, h2, h3, h4⟩ := ih ⟨some (a0 + ae), some (b0 + be),
      Duration.add acc.duration e.duration⟩ (a0 + ae) (b0 + be) rfl rfl
      (fun x hx => hl x (List.mem_cons_of_mem _ hx))
    refine ⟨total, ?_, ?_, ?_, ?_⟩
    · simp only [foldME, hadd, h1]
    · rw [h2, List.filterMap_cons_some hae, List.sum_cons]
      rw [add_assoc]
    · rw [h3, List.filterMap_cons_some hbe, List.sum_cons]
      rw [add_assoc]
    · rw [h4, List.map_cons, List.sum_cons]
      simp only [to_ms_add]
      ring

theorem aggStage_ok (results : List TestCaseResult) (p : String × StageMetricEntry)
    (hne : stageEntries results p.1 ≠ [])
    (hall : ∀ e ∈ stageEntries results p.1, e.start_rss.isSome ∧ e.end_rss.isSome) :
    aggStage results p = Except.ok (p.1, ⟨meanEntry (stageEntries results p.1), ⟨[]⟩⟩) := by
  obtain ⟨e0, rest, hE⟩ : ∃ e0 rest, stageEntries results p.1 = e0 :: rest := by
    cases hC : stageEntries results p.1 with
    | nil => exact absurd hC hne
    | cons a b => exact ⟨a, b, rfl⟩
  have hall' : ∀ e ∈ e0 :: rest, e.start_rss.isSome ∧ e.end_rss.isSome := by
    rw [← hE]; exact hall
  obtain ⟨a0, ha0⟩ := Option.isSome_iff_exists.mp (hall' e0 (List.mem_cons_self _ _)).1
  obtain ⟨b0, hb0⟩ := Option.isSome_iff_exists.mp (hall' e0 (List.mem_cons_self _ _)).2
  have hsr : allSome ((e0 :: rest).map fun e => e.start_rss)
      = Except.ok ((e0 :: rest).filterMap fun e => e.start_rss) :=
    allSome_map_ok _ _ fun e he => (hall' e he).1
  have her : allSome ((e0 :: rest).map fun e => e.end_rss)
      = Except.ok ((e0 :: rest).filterMap fun e => e.end_rss) :=
    allSome_map_ok _ _ fun e he => (hall' e he).2
  have hlsr : (((e0 :: rest).filterMap fun e => e.start_rss).map
      fun z : ℤ => (z : ℚ)) ≠ [] := by
    rw [List.filterMap_cons_some ha0]
    simp
  have hler : (((e0 :: rest).filterMap fun e => e.end_rss).map
      fun z : ℤ => (z : ℚ)) ≠ [] := by
    rw [List.filterMap_cons_some hb0]
    simp
  have hldur : ((e0 :: rest).map fun e => e.duration.to_ms) ≠ [] := by simp
  obtain ⟨o1, ho1⟩ := checkOutliers_isOk hlsr
  obtain ⟨o2, ho2⟩ := checkOutliers_isOk hler
  obtain ⟨o3, ho3⟩ := checkOutliers_isOk hldur
  obtain ⟨total, ht1, ht2, ht3, ht4⟩ := foldME_add_ok rest e0 a0 b0 ha0 hb0
    (fun x hx => hall' x (List.mem_cons_of_mem _ hx))
  simp only [aggStage, hE, hsr, her, ho1, ho2, ho3, ht1, ht2, ht3]
  simp only [meanEntry, List.filterMap_cons_some ha0, List.filterMap_cons_some hb0,
    List.sum_cons, ht4, List.map_cons]

/-- The mean exe size and averaged stage map produced by `run_test_case`
when the first run has metrics `m0`, every run has an `exe_size`, every
stage entry of every run's metrics has both RSS fields, and the mean
exe size is the integer `zex`. -/
theorem aggregateResults_all_success (cid : ℤ) (r0 : TestCaseResult)
    (rs : List TestCaseResult) (m0 : Metrics) (zex : ℤ)
    (hm0 : r0.compile_metrics = some m0)
    (hsize : ∀ r ∈ r0 :: rs, r.exe_size.isSome)
    (hrss : ∀ r ∈ r0 :: rs, ∀ m, r.compile_metrics = some m →
        ∀ q ∈ m.metrics, q.2.total.start_rss.isSome ∧ q.2.total.end_rss.isSome)
    (hz : exeMean (r0 :: rs) = (zex : ℚ)) :
    aggregateResults cid (r0 :: rs) =
      Except.ok ⟨cid, 0,
        some ⟨m0.metrics.map fun p => (p.1, ⟨meanEntry (stageEntries (r0 :: rs) p.1), ⟨[]⟩⟩)⟩,
        some zex⟩ := by
  have hallfalse : ((r0 :: rs).all fun r => r.compile_metrics.isNone) = false := by
    simp [List.all_cons, hm0]
  have hfind : (r0 :: rs).find? (fun r => r.compile_metrics.isSome) = some r0 :=
    List.find?_cons_of_pos _ (by simp [hm0])
  have hsizes : allSome ((r0 :: rs).map fun r => r.exe_size)
      = Except.ok ((r0 :: rs).filterMap fun r => r.exe_size) :=
    allSome_map_ok _ _ hsize
  have hmean : ((((r0 :: rs).filterMap fun r => r.exe_size).map fun z : ℤ => (z : ℚ)).sum /
      ((((r0 :: rs).filterMap fun r => r.exe_size)).length : ℚ)) = (zex : ℚ) := hz
  have hstage : ∀ p ∈ m0.metrics, aggStage (r0 :: rs) p
      = Except.ok (p.1, ⟨meanEntry (stageEntries (r0 :: rs) p.1), ⟨[]⟩⟩) := by
    intro p hp
    apply aggStage_ok
    · obtain ⟨sme, hsme⟩ := Option.isSome_iff_exists.mp
        (alookup_isSome_of_mem (l := m0.metrics) hp)
      have : sme.total ∈ stageEntries (r0 :: rs) p.1 := by
        rw [stageEntries, List.filterMap_cons_some]
        · exact List.mem_cons_self _ _
        · simp only [hm0, hsme]
      exact List.ne_nil_of_mem this
    · intro e he
      obtain ⟨r, hr, m, sme, hrm, hsme, rfl⟩ := stageEntries_mem he
      exact hrss r hr m hrm (p.1, sme) (alookup_mem hsme)
  have hmap := mapME_ok_map (aggStage (r0 :: rs))
    (fun p => (p.1, ⟨meanEntry (stageEntries (r0 :: rs) p.1), ⟨[]⟩⟩)) m0.metrics hstage
  simp only [aggregateResults, hallfalse, Bool.false_eq_true, if_false, hfind, hm0,
    hsizes, hmean, Rat.den_intCast, Rat.num_intCast, if_true, hmap]

theorem meanEntry_pair (a1 b1 a2 b2 : ℤ) (d1 d2 : Duration) :
    meanEntry [⟨some a1, some b1, d1⟩, ⟨some a2, some b2, d2⟩] =
      ⟨some (pythonRound (((a1 + a2 : ℤ) : ℚ) / 2)),
       some (pythonRound (((b1 + b2 : ℤ) : ℚ) / 2)),
       Duration.from_ms ((d1.to_ms + d2.to_ms) / 2)⟩ := by
  rw [meanEntry]
  rw [show (([⟨some a1, some b1, d1⟩, ⟨some a2, some b2, d2⟩] :
      List MetricEntry).filterMap fun e => e.start_rss) = [a1, a2] from rfl]
  rw [show (([⟨some a1, some b1, d1⟩, ⟨some a2, some b2, d2⟩] :
      List MetricEntry).filterMap fun e => e.end_rss) = [b1, b2] from rfl]
  rw [show (([⟨some a1, some b1, d1⟩, ⟨some a2, some b2, d2⟩] :
      List MetricEntry).map fun e => e.duration.to_ms) = [d1.to_ms, d2.to_ms] from rfl]
  rw [show ([⟨some a1, some b1, d1⟩, ⟨some a2, some b2, d2⟩] :
      List MetricEntry).length = 2 from rfl]
  simp only [List.sum_cons, List.sum_nil, add_zero]
  norm_num

theorem floor_301_half : ⌊(301 : ℚ) / 2⌋ = 150 := by
  rw [Int.floor_eq_iff]
  norm_num

theorem pythonRound_301_half : pythonRound ((301 : ℚ) / 2) = 150 := by
  rw [pythonRound, floor_301_half]
  norm_num

theorem meanEntry_singleton (e : MetricEntry) (a b : ℤ) (ha : e.start_rss = some a)
    (hb : e.end_rss = some b) (h1 : 0 ≤ e.duration.secs) (h2 : 0 ≤ e.duration.nanos)
    (h3 : e.duration.nanos < 1000000000) : meanEntry [e] = e := by
  obtain ⟨es, ee, ed⟩ := e
  simp only at ha hb h1 h2 h3
  subst ha
  subst hb
  rw [meanEntry]
  rw [show (([⟨some a, some b, ed⟩] : List MetricEntry).filterMap fun e => e.start_rss)
      = [a] from rfl]
  rw [show (([⟨some a, some b, ed⟩] : List MetricEntry).filterMap fun e => e.end_rss)
      = [b] from rfl]
  rw [show (([⟨some a, some b, ed⟩] : List MetricEntry).map fun e => e.duration.to_ms)
      = [ed.to_ms] from rfl]
  rw [show ([⟨some a, some b, ed⟩] : List MetricEntry).length = 1 from rfl]
  simp only [List.sum_cons, List.sum_nil, add_zero, Nat.cast_one, div_one]
  rw [pythonRound_intCast, pythonRound_intCast, from_ms_to_ms ed h1 h2 h3]

/-- C2 (amended): when every measured run produced `compile_metrics` and an
`exe_size` (conditions forced by the code: `np.average` raises on a `None`
`exe_size` and pydantic rejects a non-integral mean), `run_test_case`
returns a synthetic result with `exit_code = 0`, `exe_size` equal to the
integral mean of the runs' sizes, and, per stage of the first run, a total
`MetricEntry` whose `start_rss` AND `end_rss` are each the mean rounded to
the nearest integer (banker's rounding -- the claim's unrounded mean of
`start_rss` is what fails) and whose duration is the mean duration taken
through milliseconds and back. -/
theorem c2_aggregate_rounded_means (cid : ℤ) (r0 : TestCaseResult)
    (rs : List TestCaseResult) (m0 : Metrics) (zex : ℤ)
    (hm0 : r0.compile_metrics = some m0)
    (hsize : ∀ r ∈ r0 :: rs, r.exe_size.isSome)
    (hrss : ∀ r ∈ r0 :: rs, ∀ m, r.compile_metrics = some m →
        ∀ q ∈ m.metrics, q.2.total.start_rss.isSome ∧ q.2.total.end_rss.isSome)
    (hz : exeMean (r0 :: rs) = (zex : ℚ)) :
    aggregateResults cid (r0 :: rs) =
      Except.ok ⟨cid, 0,
        some ⟨m0.metrics.map fun p => (p.1, ⟨meanEntry (stageEntries (r0 :: rs) p.1), ⟨[]⟩⟩)⟩,
        some zex⟩ :=
  aggregateResults_all_success cid r0 rs m0 zex hm0 hsize hrss hz

theorem c2_amended_witness :
    aggregateResults 0 [egA, egB] =
      Except.ok ⟨0, 0, some ⟨[("parse", ⟨⟨some 150, some 250, ⟨0, 15000000⟩⟩, ⟨[]⟩⟩)]⟩,
        some 50⟩ := by
  have hz : exeMean [egA, egB] = ((50 : ℤ) : ℚ) := by
    rw [exeMean]
    rw [show ([egA, egB].filterMap fun r => r.exe_size) = [50, 50] from rfl]
    norm_num
  refine (c2_aggregate_rounded_means 0 egA [egB] mEgA 50 rfl (by decide) (by decide) hz).trans ?_
  rw [show (mEgA.metrics.map fun p =>
        (p.1, (⟨meanEntry (stageEntries [egA, egB] p.1), ⟨[]⟩⟩ : StageMetricEntry)))
      = [("parse", ⟨meanEntry (stageEntries [egA, egB] "parse"), ⟨[]⟩⟩)] from rfl]
  rw [show stageEntries [egA, egB] "parse" =
      [⟨some 100, some 200, ⟨0, 10000000⟩⟩, ⟨some 200, some 300, ⟨0, 20000000⟩⟩] from rfl]
  rw [meanEntry_pair]
  rw [show (((100 + 200 : ℤ) : ℚ) / 2) = ((150 : ℤ) : ℚ) from by push_cast; norm_num]
  rw [show (((200 + 300 : ℤ) : ℚ) / 2) = ((250 : ℤ) : ℚ) from by push_cast; norm_num]
  rw [pythonRound_intCast, pythonRound_intCast]
  rw [show ((Duration.to_ms ⟨0, 10000000⟩ + Duration.to_ms ⟨0, 20000000⟩) / 2)
      = Duration.to_ms ⟨0, 15000000⟩ from by
    rw [Duration.to_ms, Duration.to_ms, Duration.to_ms]; norm_num]
  rw [from_ms_to_ms ⟨0, 15000000⟩ (by norm_num) (by norm_num) (by norm_num)]

/-- C2 (counterexample): two successful runs with `start_rss` 100 and 201
(means: start 150.5, end 250).  The claim says the averaged `start_rss` is
the arithmetic mean 150.5; the code rounds it (`round(total / len)`), so
the synthetic entry holds 150, and no integer field can equal 150.5. -/
theorem c2_counterexample_start_rss_rounded :
    ∃ res, aggregateResults 0 [egA, cexB] = Except.ok res ∧
      ∃ m sme, res.compile_metrics = some m ∧ alookup m.metrics "parse" = some sme ∧
        sme.total.start_rss = some 150 ∧
        ∀ z : ℤ, sme.total.start_rss = some z → (z : ℚ) ≠ ((100 : ℚ) + 201) / 2 := by
  have hz : exeMean [egA, cexB] = ((50 : ℤ) : ℚ) := by
    rw [exeMean]
    rw [show ([egA, cexB].filterMap fun r => r.exe_size) = [50, 50] from rfl]
    norm_num
  have h := aggregateResults_all_success 0 egA [cexB] mEgA 50 rfl (by decide) (by decide) hz
  have hME : meanEntry (stageEntries [egA, cexB] "parse") =
      ⟨some 150, some (pythonRound (((200 + 300 : ℤ) : ℚ) / 2)),
        Duration.from_ms ((Duration.to_ms ⟨0, 10000000⟩ + Duration.to_ms ⟨0, 20000000⟩) / 2)⟩ := by
    rw [show stageEntries [egA, cexB] "parse" =
        [⟨some 100, some 200, ⟨0, 10000000⟩⟩, ⟨some 201, some 300, ⟨0, 20000000⟩⟩] from rfl]
    rw [meanEntry_pair]
    rw [show (((100 + 201 : ℤ) : ℚ) / 2) = (301 : ℚ) / 2 from by push_cast; ring]
    rw [pythonRound_301_half]
  refine ⟨_, h,
    ⟨mEgA.metrics.map fun p => (p.1, ⟨meanEntry (stageEntries [egA, cexB] p.1), ⟨[]⟩⟩)⟩,
    ⟨meanEntry (stageEntries [egA, cexB] "parse"), ⟨[]⟩⟩, rfl, ?_, ?_, ?_⟩
  · rw [show (mEgA.metrics.map fun p =>
        (p.1, (⟨meanEntry (stageEntries [egA, cexB] p.1), ⟨[]⟩⟩ : StageMetricEntry)))
        = [("parse", ⟨meanEntry (stageEntries [egA, cexB] "parse"), ⟨[]⟩⟩)] from rfl]
    rfl
  · show (meanEntry (stageEntries [egA, cexB] "parse")).start_rss = some 150
    rw [hME]
  · intro z hz2
    simp only [hME] at hz2
    injection hz2 with hz2
    subst hz2
    norm_num

/-- C4: aggregating a single measured run that produced metrics (with both
RSS fields present and a well-formed duration, `0 ≤ nanos < 1e9`,
`0 ≤ secs`) is idempotent: every stage's averaged `total` equals the sole
run's `total` exactly. -/
theorem c4_single_iteration_idempotent (cid : ℤ) (r : TestCaseResult) (m : Metrics)
    (hm : r.compile_metrics = some m)
    (hsz : r.exe_size.isSome)
    (hnd : (m.metrics.map Prod.fst).Nodup)
    (hwf : ∀ q ∈ m.metrics, q.2.total.start_rss.isSome ∧ q.2.total.end_rss.isSome ∧
        0 ≤ q.2.total.duration.secs ∧ 0 ≤ q.2.total.duration.nanos ∧
        q.2.total.duration.nanos < 1000000000) :
    ∃ res, aggregateResults cid [r] = Except.ok res ∧
      ∃ m2, res.compile_metrics = some m2 ∧
        m2.metrics.map (fun q => (q.1, q.2.total)) = m.metrics.map fun q => (q.1, q.2.total) := by
  obtain ⟨z, hzv⟩ := Option.isSome_iff_exists.mp hsz
  have hz : exeMean [r] = (z : ℚ) := by
    rw [exeMean]
    rw [show ([r].filterMap fun r2 => r2.exe_size) = [z] from by
      rw [List.filterMap_cons_some hzv]
      rfl]
    simp
  have h := aggregateResults_all_success cid r [] m z hm
    (by
      intro r2 hr2
      simp at hr2
      subst hr2
      simp [hzv])
    (by
      intro r2 hr2 m2 hm2 q hq
      simp at hr2
      subst hr2
      rw [hm] at hm2
      injection hm2 with hm2
      subst hm2
      exact ⟨(hwf q hq).1, (hwf q hq).2.1⟩)
    hz
  refine ⟨_, h, _, rfl, ?_⟩
  rw [List.map_map]
  apply List.map_congr_left
  intro q hq
  have hsme : alookup m.metrics q.1 = some q.2 := alookup_of_mem_nodup hnd hq
  have hse : stageEntries [r] q.1 = [q.2.total] := by
    simp only [stageEntries, List.filterMap_cons, hm, hsme, List.filterMap_nil]
  obtain ⟨hq1, hq2, hq3, hq4, hq5⟩ := hwf q hq
  obtain ⟨aa, haa⟩ := Option.isSome_iff_exists.mp hq1
  obtain ⟨bb, hbb⟩ := Option.isSome_iff_exists.mp hq2
  simp only [Function.comp_apply]
  rw [hse, meanEntry_singleton q.2.total aa bb haa hbb hq3 hq4 hq5]

theorem c4_witness :
    ∃ res, aggregateResults 0 [egA] = Except.ok res ∧
      ∃ m2, res.compile_metrics = some m2 ∧
        m2.metrics.map (fun q => (q.1, q.2.total)) =
          mEgA.metrics.map fun q => (q.1, q.2.total) :=
  c4_single_iteration_idempotent 0 egA mEgA rfl (by decide) (by decide) (by decide)

/-- C8: for every millisecond value `x` in `[0, 10^9)`, the round trip
`to_ms (from_ms x)` recovers `x` within the conversion tolerance: the
nanosecond truncation loses less than `1e-6` ms, and never overshoots. -/
theorem c8_duration_roundtrip_tolerance (x : ℚ) (h0 : 0 ≤ x) (h1 : x < 10 ^ 9) :
    x - 1 / 1000000 < (Duration.from_ms x).to_ms ∧ (Duration.from_ms x).to_ms ≤ x := by
  have hq : (0 : ℚ) ≤ x / 1000 := by positivity
  have hfle : ((⌊x / 1000⌋ : ℤ) : ℚ) ≤ x / 1000 := Int.floor_le _
  have hr0 : 0 ≤ x - 1000 * ((⌊x / 1000⌋ : ℤ) : ℚ) := by linarith
  have hsec : pyTrunc (x / 1000) = ⌊x / 1000⌋ := by rw [pyTrunc, if_pos hq]
  have hfm : pyFMod x 1000 = x - 1000 * ((⌊x / 1000⌋ : ℤ) : ℚ) := by rw [pyFMod]
  have hnan : pyTrunc (pyFMod x 1000 * 1000000)
      = ⌊(x - 1000 * ((⌊x / 1000⌋ : ℤ) : ℚ)) * 1000000⌋ := by
    rw [hfm, pyTrunc, if_pos (mul_nonneg hr0 (by norm_num))]
  have hval : (Duration.from_ms x).to_ms
      = ((⌊x / 1000⌋ : ℤ) : ℚ) * 1000 +
        ((⌊(x - 1000 * ((⌊x / 1000⌋ : ℤ) : ℚ)) * 1000000⌋ : ℤ) : ℚ) * (1 / 1000000) := by
    rw [Duration.from_ms, hsec, hnan]
    rfl
  have hub : ((⌊(x - 1000 * ((⌊x / 1000⌋ : ℤ) : ℚ)) * 1000000⌋ : ℤ) : ℚ)
      ≤ (x - 1000 * ((⌊x / 1000⌋ : ℤ) : ℚ)) * 1000000 := Int.floor_le _
  have hlb : (x - 1000 * ((⌊x / 1000⌋ : ℤ) : ℚ)) * 1000000 - 1
      < ((⌊(x - 1000 * ((⌊x / 1000⌋ : ℤ) : ℚ)) * 1000000⌋ : ℤ) : ℚ) := Int.sub_one_lt_floor _
  rw [hval]
  constructor
  · linarith
  · linarith

theorem c8_witness :
    (3 : ℚ) - 1 / 1000000 < (Duration.from_ms 3).to_ms ∧ (Duration.from_ms 3).to_ms ≤ 3 :=
  c8_duration_roundtrip_tolerance 3 (by norm_num) (by norm_num)
